import Mathlib

/-!
# Verification of the availability / booking consistency core

Shallow embedding of the barber-template repository's booking logic:

* `src/js/script.js` — customer booking surface (`BookingSystem`):
  `isTimeSlotBooked`, `getAvailableTimeSlots`, `submitBooking`.
* `src/js/admin.js` — admin panel (`AdminPanel`): `removeTimeSlot`,
  `copyTimeSlots`, `isPastAppointment`, `updateStats`,
  `createAppointmentCard`.
* `src/server/services/smsService.js` — Express handlers:
  `POST /api/appointments`, `PATCH /api/appointments/:id`.

JavaScript objects used as string-keyed dictionaries are embedded as
association lists (`List (String × α)`); property read, assignment and
`delete` become `lookupA`, `insertA`, `eraseA`.  Strings keep their JS
form; "falsy" checks on the strings that occur here (`!customer.name`)
become `String.isEmpty`.
-/

namespace Barber

/-- Appointment status: `pending | accepted | declined | cancelled`
(`status` column / field throughout the repository). -/
inductive Status where
  | pending
  | accepted
  | declined
  | cancelled
deriving DecidableEq, Repr

/-- Customer block of an appointment (`customer: {name, email, phone}`). -/
structure Customer where
  name : String
  email : String
  phone : String
deriving DecidableEq, Repr

/-- Appointment record in frontend shape (smsService.js converts DB rows to
this shape; admin.js and script.js consume it). -/
structure Appointment where
  id : Nat
  customer : Customer
  service : String
  price : String
  duration : Nat
  date : String
  time : String
  status : Status
  includeInAnalytics : Bool
deriving DecidableEq, Repr

/-- Availability record as held by the booking page
(`this.availability[dateStr]` in script.js): `timeSlots` plus the
`closed` flag tested by `dayInfo.closed === true`. -/
structure DayInfo where
  timeSlots : List String
  closed : Bool
deriving DecidableEq, Repr

/-- Availability record as held by the admin panel
(`this.availability[dateStr]` in admin.js).  Fields `available` and
`closed` are written by different code paths; `closed` is genuinely
absent on some records (e.g. after `removeTimeSlot` rewrites an entry),
hence `Option Bool`. -/
structure DayRec where
  available : Bool
  timeSlots : List String
  closed : Option Bool
deriving DecidableEq, Repr

/-! ## JS-object dictionaries as association lists -/

/-- Property read `m[k]` on a JS object used as a dictionary. -/
def lookupA {α : Type} : List (String × α) → String → Option α
  | [], _ => none
  | (k', v) :: rest, k => if k' == k then some v else lookupA rest k

/-- Property assignment `m[k] = v`: replaces the binding when the key is
present, appends it otherwise. -/
def insertA {α : Type} (m : List (String × α)) (k : String) (v : α) :
    List (String × α) :=
  if m.any (fun p => p.1 == k) then
    m.map (fun p => bif p.1 == k then (k, v) else p)
  else
    m ++ [(k, v)]

/-- `delete m[k]`. -/
def eraseA {α : Type} (m : List (String × α)) (k : String) :
    List (String × α) :=
  m.filter (fun p => p.1 != k)

/-! ## script.js — BookingSystem (customer surface) -/

/-- `BookingSystem.isTimeSlotBooked(dateStr, timeStr)` (script.js:247):
`this.existingAppointments.some(apt => apt.date === dateStr &&
apt.time === timeStr && (apt.status === 'pending' ||
apt.status === 'accepted'))`. -/
def isTimeSlotBooked (existingAppointments : List Appointment)
    (dateStr timeStr : String) : Bool :=
  existingAppointments.any fun apt =>
    apt.date == dateStr && apt.time == timeStr &&
      (apt.status == .pending || apt.status == .accepted)

/-- `BookingSystem.getAvailableTimeSlots(dateStr)` (script.js:287):
absent date or `closed === true` gives `[]`; otherwise
`allSlots.filter(slot => !this.isTimeSlotBooked(dateStr, slot))`. -/
def getAvailableTimeSlots (availability : List (String × DayInfo))
    (existingAppointments : List Appointment) (dateStr : String) :
    List String :=
  match lookupA availability dateStr with
  | none => []
  | some dayInfo =>
    if dayInfo.closed then []
    else dayInfo.timeSlots.filter fun slot =>
      !(isTimeSlotBooked existingAppointments dateStr slot)

/-! ## admin.js — AdminPanel.removeTimeSlot -/

/-- `AdminPanel.removeTimeSlot(dateStr, timeSlot)` (admin.js:1626):
filters the slot out; if the remaining list is empty it executes
`delete this.availability[dateStr]` (with no test of the `closed` flag),
otherwise it rewrites the entry as
`{available: true, timeSlots}` (dropping any `closed` field). -/
def removeTimeSlot (availability : List (String × DayRec))
    (dateStr timeSlot : String) : List (String × DayRec) :=
  let dayInfo := (lookupA availability dateStr).getD
    { available := true, timeSlots := [], closed := none }
  let timeSlots := dayInfo.timeSlots.filter (fun slot => slot ≠ timeSlot)
  if timeSlots.isEmpty then
    eraseA availability dateStr
  else
    insertA availability dateStr
      { available := true, timeSlots := timeSlots, closed := none }

/-! ## Local wall-clock dates and datetimes

Both frontend files parse `YYYY-MM-DD` / `HH:MM` by hand
(`dateStr.split('-').map(Number)`) and build `new Date(y, m-1, d, hh, mm)`
local datetimes.  For in-range components, comparison of such JS `Date`
values is lexicographic comparison of `(year, month, day, hour, minute)`,
which is how it is embedded here. -/

/-- Calendar date in local wall-clock terms. -/
structure LocalDate where
  year : Nat
  month : Nat
  day : Nat
deriving DecidableEq, Repr

/-- Strict lexicographic order on dates: the comparison JS performs on two
midnight `Date` values built from in-range components. -/
def LocalDate.lt (a b : LocalDate) : Bool :=
  a.year < b.year ||
    (a.year == b.year &&
      (a.month < b.month || (a.month == b.month && a.day < b.day)))

/-- Gregorian leap-year rule, as implemented by JS `Date` rollover. -/
def isLeapYear (y : Nat) : Bool :=
  y % 4 == 0 && (y % 100 != 0 || y % 400 == 0)

/-- Days in a month of a given year (JS `Date` day-of-month rollover). -/
def daysInMonth (y m : Nat) : Nat :=
  if m == 2 then (if isLeapYear y then 29 else 28)
  else if m == 4 || m == 6 || m == 9 || m == 11 then 30
  else 31

/-- `tomorrow.setDate(tomorrow.getDate() + 1)` on a local `Date`:
calendar successor with month/year rollover. -/
def nextDay (d : LocalDate) : LocalDate :=
  if d.day + 1 ≤ daysInMonth d.year d.month then
    { d with day := d.day + 1 }
  else if d.month == 12 then
    { year := d.year + 1, month := 1, day := 1 }
  else
    { d with month := d.month + 1, day := 1 }

/-- Local datetime (minute precision, as used by the appointment logic). -/
structure LocalDateTime where
  date : LocalDate
  hour : Nat
  minute : Nat
deriving DecidableEq, Repr

/-- Lexicographic comparison of two local datetimes (JS `Date` `<` for
in-range components). -/
def LocalDateTime.lt (a b : LocalDateTime) : Bool :=
  LocalDate.lt a.date b.date ||
    (a.date == b.date &&
      (a.hour < b.hour || (a.hour == b.hour && a.minute < b.minute)))

/-- JS `str.split(sep)` for a one-character separator, computed over the
string's character list. -/
def splitOnChar (sep : Char) : List Char → List (List Char)
  | [] => [[]]
  | c :: rest =>
    let r := splitOnChar sep rest
    if c == sep then [] :: r
    else
      match r with
      | s :: ss => (c :: s) :: ss
      | [] => [[c]]

/-- JS `Number(str)` on the decimal-digit strings produced by splitting
`YYYY-MM-DD` / `HH:MM` values: folds the digits to a `Nat` (`Number('')`
is `0`, matching the fold on the empty list). -/
def numOfChars (cs : List Char) : Nat :=
  cs.foldl (fun acc c => acc * 10 + (c.toNat - 48)) 0

/-- `dateStr.split('-').map(Number)` on a `YYYY-MM-DD` string. -/
def parseDateStr (s : String) : LocalDate :=
  match (splitOnChar '-' s.data).map numOfChars with
  | [y, m, d] => { year := y, month := m, day := d }
  | _ => { year := 0, month := 0, day := 0 }

/-- `timeStr.split(':').map(Number)` on an `HH:MM` string. -/
def parseTimeStr (s : String) : Nat × Nat :=
  match (splitOnChar ':' s.data).map numOfChars with
  | [h, m] => (h, m)
  | _ => (0, 0)

/-- JS string comparison `a <= b`: lexicographic on the code units, which
for the ASCII `HH:MM` strings at hand is lexicographic on the
characters. -/
def lexLeChars : List Char → List Char → Bool
  | [], _ => true
  | _ :: _, [] => false
  | a :: as, b :: bs => if a == b then lexLeChars as bs else decide (a < b)

/-- JS `a <= b` on strings (specialised to the ASCII strings used here). -/
def jsLe (a b : String) : Bool :=
  lexLeChars a.data b.data

/-- The local datetime of an appointment, from its `date` and `time`
strings (`new Date(year, month - 1, day, hours, minutes)`). -/
def appointmentDateTime (apt : Appointment) : LocalDateTime :=
  { date := parseDateStr apt.date,
    hour := (parseTimeStr apt.time).1,
    minute := (parseTimeStr apt.time).2 }

/-! ## admin.js — past-appointment classification and statistics -/

/-- `AdminPanel.isPastAppointment(appointment)` (admin.js:946): builds the
appointment's local datetime and compares it against `tomorrow` =
today's date + 1 day at 00:00; returns `appointmentDate < tomorrow`.
`today` stands for the current local date (`new Date()`'s date part). -/
def isPastAppointment (apt : Appointment) (today : LocalDate) : Bool :=
  LocalDateTime.lt (appointmentDateTime apt)
    { date := nextDay today, hour := 0, minute := 0 }

/-- The three counters shown by the admin dashboard. -/
structure Stats where
  pendingCount : Nat
  acceptedCount : Nat
  totalCount : Nat
deriving DecidableEq, Repr

/-- `AdminPanel.updateStats()` (admin.js:728): filters out past
appointments, then counts `pending`, `accepted` and the total among the
remaining ones. -/
def updateStats (appointments : List Appointment) (today : LocalDate) :
    Stats :=
  let activeAppointments :=
    appointments.filter fun apt => !(isPastAppointment apt today)
  { pendingCount :=
      (activeAppointments.filter (fun apt => apt.status == .pending)).length,
    acceptedCount :=
      (activeAppointments.filter (fun apt => apt.status == .accepted)).length,
    totalCount := activeAppointments.length }

/-- `createAppointmentCard` (admin.js:866):
`const buttonsDisabled = isUpdating || isPast` — gates the delete button
and the analytics toggle. -/
def buttonsDisabled (apt : Appointment) (today : LocalDate)
    (isUpdating : Bool) : Bool :=
  isUpdating || isPastAppointment apt today

/-- `createAppointmentCard` renders the accept/decline action buttons only
under `!isPast` (admin.js:919, the `${!isPast ? ... : ''}` template). -/
def acceptDeclineShown (apt : Appointment) (today : LocalDate) : Bool :=
  !(isPastAppointment apt today)

/-! ## admin.js — AdminPanel.copyTimeSlots -/

/-- Outcome of `copyTimeSlots`: either the updated availability store
together with the number of days copied to (`selectedDays.length`, used
in the success message), or the user-facing validation error message. -/
inductive CopyResult where
  | ok (availability : List (String × DayRec)) (dayCount : Nat)
  | err (msg : String)
deriving DecidableEq, Repr

/-- `AdminPanel.copyTimeSlots(sourceDateStr)` (admin.js:1390), with the DOM
reads made explicit: `selectedDays` are the checked target dates and
`today` is the current local date.  Validation order as in the source:
empty selection, past targets, source among targets, empty/missing
source slots; on success every target's record is assigned
`{available: true, timeSlots: [...timeSlotsToCopy], closed: false}`. -/
def copyTimeSlots (availability : List (String × DayRec))
    (sourceDateStr : String) (selectedDays : List String)
    (today : LocalDate) : CopyResult :=
  if selectedDays.isEmpty then
    .err "Please select at least one day to copy to."
  else if !(selectedDays.filter fun dateStr =>
      LocalDate.lt (parseDateStr dateStr) today).isEmpty then
    .err "Cannot copy to past dates."
  else if selectedDays.contains sourceDateStr then
    .err "Cannot copy to the same day."
  else
    match lookupA availability sourceDateStr with
    | none => .err "No time slots to copy from this day."
    | some sourceDayInfo =>
      if sourceDayInfo.timeSlots.isEmpty then
        .err "No time slots to copy from this day."
      else
        .ok
          (selectedDays.foldl
            (fun acc targetDateStr =>
              insertA acc targetDateStr
                { available := true, timeSlots := sourceDayInfo.timeSlots,
                  closed := some false })
            availability)
          selectedDays.length

/-! ## smsService.js — POST /api/appointments

The handler is embedded as a function of the request body and of the two
database reads it performs: the `availability` row for the requested date
(`.eq('date', date).single()` — `none` stands for the error case where no
row matches, so `availError` fires) and the appointment table contents
(the `existingBookings` query is applied to it in-model).  `newId` stands
for the id the database assigns on insert.  External database failures
(HTTP 500 paths) are outside a logic model of the handler and not
represented. -/

/-- `availability` table row (columns `time_slots`, `is_closed`). -/
structure AvailRow where
  time_slots : List String
  is_closed : Bool
deriving DecidableEq, Repr

/-- `POST /api/appointments` request body.  The handler destructures only
the fields named here except `statusField`, which stands for a `status`
key a client may put in the body: it is never read.  `price`, `duration`
and `includeInAnalyticsField` keep their absent-vs-present distinction
(`price || '0.00'`, `duration || 45`, destructuring default `= true`). -/
structure BookingRequest where
  customer : Option Customer
  service : String
  price : Option String
  duration : Option Nat
  date : String
  time : String
  includeInAnalyticsField : Option Bool
  statusField : Option Status
deriving DecidableEq, Repr

/-- Response of the POST handler on the modelled paths:
`created` is `res.status(201).json(appointment)`, `badRequest msg` is
`res.status(400).json({error: msg})`. -/
inductive PostResult where
  | created (appointment : Appointment)
  | badRequest (msg : String)
deriving DecidableEq, Repr

/-- HTTP status code carried by each `PostResult`. -/
def PostResult.httpStatus : PostResult → Nat
  | .created _ => 201
  | .badRequest _ => 400

/-- `JS truthiness of customer && customer.name && customer.email &&
customer.phone`, negated: the handler's first validation
(smsService.js:625). -/
def customerMissing (customer : Option Customer) : Bool :=
  match customer with
  | none => true
  | some c => c.name.isEmpty || c.email.isEmpty || c.phone.isEmpty

/-- The `existingBookings` query (smsService.js:657): appointments at the
requested `(date, time)` whose status is `pending` or `accepted`
(`.in('status', ['pending', 'accepted'])`). -/
def existingBookings (db : List Appointment) (date time : String) :
    List Appointment :=
  db.filter fun apt =>
    apt.date == date && apt.time == time &&
      (apt.status == .pending || apt.status == .accepted)

/-- `POST /api/appointments` handler (smsService.js:601): validates
customer fields, then presence of service/date/time, then fetches the
availability row (absent row or closed date rejected), then rejects when
a pending/accepted appointment already occupies `(date, time)`; otherwise
inserts the appointment with `status: 'pending'` and returns it with
HTTP 201.  There is no check of `time` against the row's `time_slots`. -/
def postAppointments (req : BookingRequest) (availRow : Option AvailRow)
    (db : List Appointment) (newId : Nat) : PostResult :=
  if customerMissing req.customer then
    .badRequest "Customer information is required"
  else if req.service.isEmpty || req.date.isEmpty || req.time.isEmpty then
    .badRequest "Service, date, and time are required"
  else
    match availRow with
    | none => .badRequest "This date is not available for booking"
    | some availabilityData =>
      if availabilityData.is_closed then
        .badRequest "This date is closed and not available for booking"
      else if !(existingBookings db req.date req.time).isEmpty then
        .badRequest "This time slot is already booked"
      else
        .created
          { id := newId,
            customer := req.customer.getD { name := "", email := "", phone := "" },
            service := req.service,
            price :=
              match req.price with
              | some p => if p.isEmpty then "0.00" else p
              | none => "0.00",
            duration :=
              match req.duration with
              | some d => if d == 0 then 45 else d
              | none => 45,
            date := req.date,
            time := req.time,
            status := .pending,
            includeInAnalytics := req.includeInAnalyticsField.getD true }

/-! ## smsService.js — PATCH /api/appointments/:id -/

/-- Response of the PATCH handler on the modelled paths: `ok` is
`res.json(appointment)` (HTTP 200); `dbError` is the HTTP 500 branch that
fires when `.update(...).eq('id', id).select().single()` matches no row. -/
inductive PatchResult where
  | ok (appointment : Appointment)
  | dbError (msg : String)
deriving DecidableEq, Repr

/-- `PATCH /api/appointments/:id` with body `{status}` (smsService.js:743):
the update is applied to the matching row unconditionally — the handler
inspects neither the current status nor the requested one before
writing, so any `newStatus` is stored and echoed back.  Returns the
updated table together with the response. -/
def patchAppointmentStatus (db : List Appointment) (appointmentId : Nat)
    (newStatus : Status) : List Appointment × PatchResult :=
  match db.find? (fun apt => apt.id == appointmentId) with
  | none => (db, .dbError "Failed to update appointment")
  | some apt =>
    let updated := { apt with status := newStatus }
    (db.map (fun a => if a.id == appointmentId then updated else a),
     .ok updated)

/-! ## Dictionary lemmas -/

theorem lookupA_eraseA_self {α : Type} (m : List (String × α)) (k : String) :
    lookupA (eraseA m k) k = none := by
  induction m with
  | nil => rfl
  | cons p rest ih =>
    by_cases hpk : p.1 == k
    · simp only [eraseA, List.filter_cons, bne, hpk, Bool.not_true] at *
      exact ih
    · simp only [eraseA, List.filter_cons, bne, hpk, Bool.not_false,
        if_true, lookupA, eraseA] at *
      simp only [hpk, Bool.false_eq_true, if_false]
      exact ih

theorem lookupA_map_replace {α : Type} (m : List (String × α)) (k : String)
    (v : α) (h : m.any (fun p => p.1 == k) = true) :
    lookupA (m.map (fun p => bif p.1 == k then (k, v) else p)) k = some v := by
  induction m with
  | nil => simp at h
  | cons p rest ih =>
    cases hpk : p.1 == k with
    | true =>
      simp only [List.map_cons, hpk, cond_true, lookupA, beq_self_eq_true,
        if_true]
    | false =>
      simp only [List.any_cons, hpk, Bool.false_or] at h
      simp only [List.map_cons, hpk, cond_false, lookupA]
      rw [if_neg (by simp [hpk])]
      exact ih h

theorem lookupA_append_new {α : Type} (m : List (String × α)) (k : String)
    (v : α) (h : m.any (fun p => p.1 == k) = false) :
    lookupA (m ++ [(k, v)]) k = some v := by
  induction m with
  | nil => simp [lookupA]
  | cons p rest ih =>
    simp only [List.any_cons, Bool.or_eq_false_iff] at h
    simp only [List.cons_append, lookupA]
    rw [if_neg (by simp [h.1])]
    exact ih h.2

theorem lookupA_insertA_self {α : Type} (m : List (String × α)) (k : String)
    (v : α) : lookupA (insertA m k v) k = some v := by
  unfold insertA
  by_cases h : m.any (fun p => p.1 == k) = true
  · rw [if_pos h]; exact lookupA_map_replace m k v h
  · rw [if_neg h]
    exact lookupA_append_new m k v (Bool.eq_false_iff.mpr h)

theorem lookupA_map_replace_ne {α : Type} (m : List (String × α))
    (k k2 : String) (v : α) (h : k2 ≠ k) :
    lookupA (m.map (fun p => bif p.1 == k then (k, v) else p)) k2 =
      lookupA m k2 := by
  induction m with
  | nil => rfl
  | cons p rest ih =>
    cases hpk : p.1 == k with
    | true =>
      have hp : p.1 = k := by simpa using hpk
      simp only [List.map_cons, hpk, cond_true, lookupA]
      rw [if_neg (by simp [Ne.symm h]), if_neg (by simp [hp, Ne.symm h])]
      exact ih
    | false =>
      simp only [List.map_cons, hpk, cond_false, lookupA]
      by_cases hpk2 : (p.1 == k2) = true
      · rw [if_pos hpk2, if_pos hpk2]
      · rw [if_neg hpk2, if_neg hpk2]
        exact ih

theorem lookupA_append_ne {α : Type} (m : List (String × α)) (k k2 : String)
    (v : α) (h : k2 ≠ k) :
    lookupA (m ++ [(k, v)]) k2 = lookupA m k2 := by
  induction m with
  | nil => simp [lookupA, Ne.symm h]
  | cons p rest ih =>
    simp only [List.cons_append, lookupA]
    by_cases hpk2 : (p.1 == k2) = true
    · rw [if_pos hpk2, if_pos hpk2]
    · rw [if_neg hpk2, if_neg hpk2]
      exact ih

theorem lookupA_insertA_ne {α : Type} (m : List (String × α)) (k k2 : String)
    (v : α) (h : k2 ≠ k) : lookupA (insertA m k v) k2 = lookupA m k2 := by
  unfold insertA
  split
  · exact lookupA_map_replace_ne m k k2 v h
  · exact lookupA_append_ne m k k2 v h

theorem lookupA_any {α : Type} (m : List (String × α)) (k : String) (v : α)
    (h : lookupA m k = some v) : m.any (fun p => p.1 == k) = true := by
  induction m with
  | nil => simp [lookupA] at h
  | cons p rest ih =>
    simp only [lookupA] at h
    by_cases hpk : (p.1 == k) = true
    · simp [List.any_cons, hpk]
    · rw [if_neg hpk] at h
      simp [List.any_cons, ih h]

theorem foldl_insertA_lookup_not_mem {α : Type} (ds : List String)
    (m : List (String × α)) (v : α) (k : String) (h : k ∉ ds) :
    lookupA (ds.foldl (fun acc t => insertA acc t v) m) k = lookupA m k := by
  induction ds generalizing m with
  | nil => rfl
  | cons t rest ih =>
    simp only [List.foldl_cons]
    rw [ih _ (fun hk => h (List.mem_cons_of_mem t hk))]
    exact lookupA_insertA_ne m t k v (fun hk => h (hk ▸ List.mem_cons_self t rest))

theorem foldl_insertA_lookup_mem {α : Type} (ds : List String)
    (m : List (String × α)) (v : α) (k : String) (h : k ∈ ds) :
    lookupA (ds.foldl (fun acc t => insertA acc t v) m) k = some v := by
  induction ds generalizing m with
  | nil => cases h
  | cons t rest ih =>
    simp only [List.foldl_cons]
    by_cases hk : k ∈ rest
    · exact ih _ hk
    · have hkt : k = t := by
        cases List.mem_cons.mp h with
        | inl h1 => exact h1
        | inr h2 => exact absurd h2 hk
      rw [foldl_insertA_lookup_not_mem rest _ v k hk, hkt,
        lookupA_insertA_self]

theorem mem_insertA {α : Type} (m : List (String × α)) (k : String) (v : α)
    (p : String × α) (h : p ∈ insertA m k v) : p ∈ m ∨ p = (k, v) := by
  unfold insertA at h
  split at h
  · rcases List.mem_map.mp h with ⟨q, hq, hqp⟩
    cases hqk : q.1 == k with
    | true => right; rw [← hqp, hqk]; rfl
    | false => left; rw [← hqp, hqk]; simpa using hq
  · rcases List.mem_append.mp h with h1 | h1
    · left; exact h1
    · right; simpa using h1

theorem insertA_key_val {α : Type} (m : List (String × α)) (k : String)
    (v : α) (p : String × α) (hp : p ∈ insertA m k v) (hk : p.1 = k) :
    p.2 = v := by
  unfold insertA at hp
  split at hp
  · rcases List.mem_map.mp hp with ⟨q, hq, hqp⟩
    cases hqk : q.1 == k with
    | true => rw [← hqp]; simp [hqk]
    | false =>
      exfalso
      rw [← hqp] at hk
      simp only [hqk, cond_false] at hk
      simp [hk] at hqk
  · rename_i hany
    rcases List.mem_append.mp hp with h1 | h1
    · exfalso
      apply hany
      exact List.any_of_mem h1 (by simp [hk])
    · simp only [List.mem_singleton] at h1
      rw [h1]

theorem foldl_insertA_pass_through {α : Type} (ds : List String)
    (m : List (String × α)) (v : α) (p : String × α)
    (hp : p ∈ ds.foldl (fun acc t => insertA acc t v) m) (hk : p.1 ∉ ds) :
    p ∈ m := by
  induction ds generalizing m with
  | nil => exact hp
  | cons t rest ih =>
    simp only [List.foldl_cons] at hp
    have hrest : p.1 ∉ rest := fun h => hk (List.mem_cons_of_mem t h)
    have hmem : p ∈ insertA m t v := ih _ hp hrest
    cases mem_insertA m t v p hmem with
    | inl h1 => exact h1
    | inr h1 =>
      exfalso
      apply hk
      rw [h1]
      exact List.mem_cons_self t rest

theorem foldl_insertA_all_copied {α : Type} (ds : List String)
    (m : List (String × α)) (v : α) (p : String × α)
    (hp : p ∈ ds.foldl (fun acc t => insertA acc t v) m) (hk : p.1 ∈ ds) :
    p.2 = v := by
  induction ds generalizing m with
  | nil => cases hk
  | cons t rest ih =>
    simp only [List.foldl_cons] at hp
    by_cases hkr : p.1 ∈ rest
    · exact ih _ hp hkr
    · have hkt : p.1 = t := by
        cases List.mem_cons.mp hk with
        | inl h1 => exact h1
        | inr h2 => exact absurd h2 hkr
      have hmem : p ∈ insertA m t v := foldl_insertA_pass_through rest _ v p hp hkr
      exact insertA_key_val m t v p hmem hkt

theorem insertA_self_of_all_eq {α : Type} (m : List (String × α))
    (k : String) (v : α) (hk : m.any (fun p => p.1 == k) = true)
    (hall : ∀ p ∈ m, p.1 = k → p.2 = v) : insertA m k v = m := by
  unfold insertA
  rw [if_pos hk]
  have : ∀ p ∈ m, (fun p => bif p.1 == k then (k, v) else p) p = id p := by
    intro p hp
    cases hpk : p.1 == k with
    | true =>
      have h1 : p.1 = k := by simpa using hpk
      have h2 : p.2 = v := hall p hp h1
      simp only [hpk, cond_true, id]
      rw [← h1, ← h2]
    | false => simp [hpk]
  rw [List.map_congr_left this, List.map_id]

theorem foldl_insertA_self {α : Type} (ds : List String)
    (m : List (String × α)) (v : α)
    (hkeys : ∀ k ∈ ds, m.any (fun p => p.1 == k) = true)
    (hall : ∀ p ∈ m, p.1 ∈ ds → p.2 = v) :
    ds.foldl (fun acc t => insertA acc t v) m = m := by
  induction ds with
  | nil => rfl
  | cons t rest ih =>
    simp only [List.foldl_cons]
    have hins : insertA m t v = m :=
      insertA_self_of_all_eq m t v (hkeys t (List.mem_cons_self t rest))
        (fun p hp hpt => hall p hp (hpt ▸ List.mem_cons_self t rest))
    rw [hins]
    exact ih (fun k hk => hkeys k (List.mem_cons_of_mem t hk))
      (fun p hp hpr => hall p hp (List.mem_cons_of_mem t hpr))

/-! ## Claim theorems -/

theorem isTimeSlotBooked_iff (existing : List Appointment)
    (dateStr timeStr : String) :
    isTimeSlotBooked existing dateStr timeStr = true ↔
      ∃ apt ∈ existing, apt.date = dateStr ∧ apt.time = timeStr ∧
        (apt.status = Status.pending ∨ apt.status = Status.accepted) := by
  unfold isTimeSlotBooked
  rw [List.any_eq_true]
  constructor
  · rintro ⟨apt, hmem, hp⟩
    simp only [Bool.and_eq_true, Bool.or_eq_true, beq_iff_eq] at hp
    exact ⟨apt, hmem, hp.1.1, hp.1.2, hp.2⟩
  · rintro ⟨apt, hmem, h1, h2, h3⟩
    refine ⟨apt, hmem, ?_⟩
    simp only [Bool.and_eq_true, Bool.or_eq_true, beq_iff_eq]
    exact ⟨⟨h1, h2⟩, h3⟩

/-- C2: for every availability day record and list of appointments on that
date, `getAvailableTimeSlots` returns the empty list when the day is
absent from the store or has `closed == true`, and otherwise returns
exactly the day's `timeSlots` with every time removed for which an
appointment on that date has status `pending` or `accepted`. -/
theorem C2_slot_resolver (availability : List (String × DayInfo))
    (existing : List Appointment) (dateStr : String) :
    (lookupA availability dateStr = none →
      getAvailableTimeSlots availability existing dateStr = [])
    ∧ (∀ dayInfo, lookupA availability dateStr = some dayInfo →
        (dayInfo.closed = true →
          getAvailableTimeSlots availability existing dateStr = [])
        ∧ (dayInfo.closed = false →
            List.Sublist (getAvailableTimeSlots availability existing dateStr)
              dayInfo.timeSlots
            ∧ ∀ t, t ∈ getAvailableTimeSlots availability existing dateStr ↔
                (t ∈ dayInfo.timeSlots ∧
                  ¬ ∃ apt ∈ existing, apt.date = dateStr ∧ apt.time = t ∧
                    (apt.status = Status.pending ∨
                      apt.status = Status.accepted)))) := by
  refine ⟨fun h => ?_, fun dayInfo h => ⟨fun hc => ?_, fun hc => ⟨?_, ?_⟩⟩⟩
  · unfold getAvailableTimeSlots
    rw [h]
  · unfold getAvailableTimeSlots
    rw [h]
    simp [hc]
  · unfold getAvailableTimeSlots
    rw [h]
    simp only [hc, Bool.false_eq_true, if_false]
    exact List.filter_sublist _
  · intro t
    unfold getAvailableTimeSlots
    rw [h]
    simp only [hc, Bool.false_eq_true, if_false, List.mem_filter,
      Bool.not_eq_true']
    have hb := isTimeSlotBooked_iff existing dateStr t
    constructor
    · rintro ⟨h1, h2⟩
      refine ⟨h1, fun hex => ?_⟩
      rw [hb.mpr hex] at h2
      cases h2
    · rintro ⟨h1, h2⟩
      refine ⟨h1, ?_⟩
      cases hbool : isTimeSlotBooked existing dateStr t
      · rfl
      · exact absurd (hb.mp hbool) h2

/-- Fixture for the C2 witness: the spec §8 store. -/
def avC2 : List (String × DayInfo) :=
  [("2025-06-10", { timeSlots := ["09:00", "09:45"], closed := false })]

/-- Fixture for the C2 witness: a pending appointment at `09:00`. -/
def aptC2 : Appointment :=
  { id := 1, customer := { name := "A", email := "a@b.c", phone := "1" },
    service := "Cut", price := "25.00", duration := 45,
    date := "2025-06-10", time := "09:00", status := .pending,
    includeInAnalytics := true }

/-- Witness for C2 at the spec's §8 scenario: availability
`2025-06-10 ↦ ["09:00","09:45"]`, one pending appointment at `09:00`:
the absent date `2025-06-11` resolves to `[]` and `09:00` is not
offered. -/
theorem C2_witness :
    getAvailableTimeSlots avC2 [aptC2] "2025-06-11" = []
    ∧ "09:00" ∉ getAvailableTimeSlots avC2 [aptC2] "2025-06-10" := by
  constructor
  · exact (C2_slot_resolver avC2 [aptC2] "2025-06-11").1 (by decide)
  · intro hmem
    have hiff :=
      (((C2_slot_resolver avC2 [aptC2] "2025-06-10").2
          { timeSlots := ["09:00", "09:45"], closed := false }
          (by decide)).2 rfl).2 "09:00"
    exact (hiff.mp hmem).2
      ⟨aptC2, List.mem_singleton_self _, rfl, rfl, Or.inl rfl⟩

/-- C9: every appointment the POST handler reports as created is returned
with HTTP 201 and carries status `pending`, whatever `status` value the
request body held. -/
theorem C9_created_is_pending_201 (req : BookingRequest)
    (availRow : Option AvailRow) (db : List Appointment) (newId : Nat)
    (a : Appointment)
    (h : postAppointments req availRow db newId = .created a) :
    a.status = .pending ∧
      (postAppointments req availRow db newId).httpStatus = 201 := by
  have h2 := h
  unfold postAppointments at h
  split at h
  · cases h
  · split at h
    · cases h
    · split at h
      · cases h
      · split at h
        · cases h
        · split at h
          · cases h
          · cases h
            exact ⟨rfl, by rw [h2]; rfl⟩

/-- Fixture for the C9 witness: a valid booking request whose body carries
`status: accepted` (ignored by the handler). -/
def reqC9 : BookingRequest :=
  { customer := some { name := "A", email := "a@b.c", phone := "1" },
    service := "Cut", price := some "25.00", duration := some 45,
    date := "2025-06-10", time := "09:00",
    includeInAnalyticsField := none, statusField := some .accepted }

/-- Fixture for the C9 witness: the availability row of the date. -/
def rowC9 : AvailRow :=
  { time_slots := ["09:00", "09:45"], is_closed := false }

/-- Fixture for the C9 witness: the appointment the handler creates. -/
def aptC9 : Appointment :=
  { id := 3, customer := { name := "A", email := "a@b.c", phone := "1" },
    service := "Cut", price := "25.00", duration := 45,
    date := "2025-06-10", time := "09:00", status := .pending,
    includeInAnalytics := true }

/-- Witness for C9: the concrete request `reqC9`, which carries
`status: accepted` in its body, still yields a created appointment with
status `pending` and HTTP 201. -/
theorem C9_witness :
    postAppointments reqC9 (some rowC9) [] 3 = PostResult.created aptC9
    ∧ aptC9.status = .pending
    ∧ (postAppointments reqC9 (some rowC9) [] 3).httpStatus = 201 := by
  refine ⟨by decide, ?_, ?_⟩
  · exact (C9_created_is_pending_201 reqC9 (some rowC9) [] 3 aptC9 (by decide)).1
  · exact (C9_created_is_pending_201 reqC9 (some rowC9) [] 3 aptC9 (by decide)).2

theorem status_not_open_iff (s : Status) :
    ¬(s = Status.pending ∨ s = Status.accepted) ↔
      (s = Status.declined ∨ s = Status.cancelled) := by
  cases s <;> simp

theorem existingBookings_eq_nil_iff (db : List Appointment)
    (date time : String) :
    existingBookings db date time = [] ↔
      ∀ apt ∈ db, apt.date = date → apt.time = time →
        (apt.status = Status.declined ∨ apt.status = Status.cancelled) := by
  unfold existingBookings
  rw [List.filter_eq_nil_iff]
  constructor
  · intro h apt hmem hd ht
    have := h apt hmem
    rw [← status_not_open_iff]
    intro hs
    apply this
    simp only [Bool.and_eq_true, Bool.or_eq_true, beq_iff_eq]
    exact ⟨⟨hd, ht⟩, hs⟩
  · intro h apt hmem
    intro hp
    simp only [Bool.and_eq_true, Bool.or_eq_true, beq_iff_eq] at hp
    exact absurd hp.2 ((status_not_open_iff apt.status).mpr
      (h apt hmem hp.1.1 hp.1.2))

theorem existingBookings_mem (db : List Appointment) (date time : String)
    (apt : Appointment) (hmem : apt ∈ db) (hd : apt.date = date)
    (ht : apt.time = time)
    (hs : apt.status = Status.pending ∨ apt.status = Status.accepted) :
    apt ∈ existingBookings db date time := by
  unfold existingBookings
  rw [List.mem_filter]
  refine ⟨hmem, ?_⟩
  simp only [Bool.and_eq_true, Bool.or_eq_true, beq_iff_eq]
  exact ⟨⟨hd, ht⟩, hs⟩

/-- C1: the POST handler never creates an appointment at a `(date, time)`
already occupied by a `pending` or `accepted` appointment; when the
other validations pass it answers the slot-taken rejection there; and a
`(date, time)` whose every prior occupant is `declined` or `cancelled`
is accepted (created). -/
theorem C1_double_booking_guard (req : BookingRequest)
    (availRow : Option AvailRow) (db : List Appointment) (newId : Nat) :
    ((∃ apt ∈ db, apt.date = req.date ∧ apt.time = req.time ∧
        (apt.status = Status.pending ∨ apt.status = Status.accepted)) →
      ∀ a, postAppointments req availRow db newId ≠ .created a)
    ∧ (∀ row, customerMissing req.customer = false →
        (req.service.isEmpty || req.date.isEmpty || req.time.isEmpty) = false →
        availRow = some row → row.is_closed = false →
        (∃ apt ∈ db, apt.date = req.date ∧ apt.time = req.time ∧
          (apt.status = Status.pending ∨ apt.status = Status.accepted)) →
        postAppointments req availRow db newId =
          .badRequest "This time slot is already booked")
    ∧ (∀ row, customerMissing req.customer = false →
        (req.service.isEmpty || req.date.isEmpty || req.time.isEmpty) = false →
        availRow = some row → row.is_closed = false →
        (∀ apt ∈ db, apt.date = req.date → apt.time = req.time →
          (apt.status = Status.declined ∨ apt.status = Status.cancelled)) →
        ∃ a, postAppointments req availRow db newId = .created a ∧
          a.status = Status.pending) := by
  have hocc : ∀ (hex : ∃ apt ∈ db, apt.date = req.date ∧ apt.time = req.time ∧
      (apt.status = Status.pending ∨ apt.status = Status.accepted)),
      (!(existingBookings db req.date req.time).isEmpty) = true := by
    rintro ⟨apt, hmem, hd, ht, hs⟩
    have h1 : apt ∈ existingBookings db req.date req.time :=
      existingBookings_mem db req.date req.time apt hmem hd ht hs
    cases hl : existingBookings db req.date req.time with
    | nil => rw [hl] at h1; cases h1
    | cons x xs => simp [List.isEmpty]
  refine ⟨?_, ?_, ?_⟩
  · intro hex a
    unfold postAppointments
    split
    · intro hcon; cases hcon
    · split
      · intro hcon; cases hcon
      · split
        · intro hcon; cases hcon
        · split
          · intro hcon; cases hcon
          · rw [if_pos (hocc hex)]
            intro hcon; cases hcon
  · intro row hc hf hr hcl hex
    subst hr
    unfold postAppointments
    rw [if_neg (by simp [hc]), if_neg (by simp [hf])]
    simp only
    rw [if_neg (by simp [hcl]), if_pos (hocc hex)]
  · intro row hc hf hr hcl hfree
    subst hr
    unfold postAppointments
    rw [if_neg (by simp [hc]), if_neg (by simp [hf])]
    simp only
    rw [if_neg (by simp [hcl])]
    have hnil : existingBookings db req.date req.time = [] :=
      (existingBookings_eq_nil_iff db req.date req.time).mpr hfree
    rw [if_neg (by simp [hnil, List.isEmpty])]
    exact ⟨_, rfl, rfl⟩

/-- Fixture for the C1 witness: a valid booking request at
`2025-06-10 09:00`. -/
def reqC1 : BookingRequest :=
  { customer := some { name := "B", email := "b@c.d", phone := "2" },
    service := "Cut", price := some "25.00", duration := some 45,
    date := "2025-06-10", time := "09:00",
    includeInAnalyticsField := none, statusField := none }

/-- Fixture for the C1 witness: a pending occupant of the slot. -/
def occupantC1 : Appointment :=
  { id := 11, customer := { name := "A", email := "a@b.c", phone := "1" },
    service := "Cut", price := "25.00", duration := 45,
    date := "2025-06-10", time := "09:00", status := .pending,
    includeInAnalytics := true }

/-- Fixture for the C1 witness: the same occupant after declining. -/
def declinedC1 : Appointment :=
  { id := 11, customer := { name := "A", email := "a@b.c", phone := "1" },
    service := "Cut", price := "25.00", duration := 45,
    date := "2025-06-10", time := "09:00", status := .declined,
    includeInAnalytics := true }

/-- Fixture for the C1 witness: the availability row of the date. -/
def rowC1 : AvailRow :=
  { time_slots := ["09:00", "09:45"], is_closed := false }

/-- Fixture for the C1 witness: the appointment the handler creates once
the slot is free. -/
def createdC1 : Appointment :=
  { id := 12, customer := { name := "B", email := "b@c.d", phone := "2" },
    service := "Cut", price := "25.00", duration := 45,
    date := "2025-06-10", time := "09:00", status := .pending,
    includeInAnalytics := true }

/-- Witness for C1: with a pending occupant the concrete request is
rejected as slot-taken (and not created); with the occupant declined,
the pending appointment `createdC1` is created. -/
theorem C1_witness :
    postAppointments reqC1 (some rowC1) [occupantC1] 12 ≠ .created createdC1
    ∧ postAppointments reqC1 (some rowC1) [occupantC1] 12 =
        .badRequest "This time slot is already booked"
    ∧ postAppointments reqC1 (some rowC1) [declinedC1] 12 =
        .created createdC1
    ∧ createdC1.status = Status.pending := by
  refine ⟨?_, ?_, ?_, by decide⟩
  · exact (C1_double_booking_guard reqC1 (some rowC1) [occupantC1] 12).1
      ⟨occupantC1, List.mem_singleton_self _, rfl, rfl, Or.inl rfl⟩ createdC1
  · exact (C1_double_booking_guard reqC1 (some rowC1) [occupantC1] 12).2.1
      rowC1 (by decide) (by decide) rfl (by decide)
      ⟨occupantC1, List.mem_singleton_self _, rfl, rfl, Or.inl rfl⟩
  · obtain ⟨a, ha, hs⟩ :=
      (C1_double_booking_guard reqC1 (some rowC1) [declinedC1] 12).2.2
        rowC1 (by decide) (by decide) rfl (by decide)
        (by intro apt hmem hd ht
            rw [List.mem_singleton] at hmem
            subst hmem
            exact Or.inl rfl)
    have hconc : postAppointments reqC1 (some rowC1) [declinedC1] 12 =
        .created createdC1 := by decide
    exact hconc

/-- Fixture for the C3 counterexample: a valid request at `23:59`, a time
the date does not offer. -/
def reqC3 : BookingRequest :=
  { customer := some { name := "B", email := "b@c.d", phone := "2" },
    service := "Cut", price := some "25.00", duration := some 45,
    date := "2025-06-10", time := "23:59",
    includeInAnalyticsField := none, statusField := none }

/-- Fixture for the C3 counterexample: the date's availability row, whose
`time_slots` do not contain `23:59`. -/
def rowC3 : AvailRow :=
  { time_slots := ["09:00", "09:45"], is_closed := false }

/-- Counterexample to C3: `23:59` is not in the day's `timeSlots`, the day
exists and is not closed, yet the handler creates the appointment —
there is no SlotNotOffered rejection. -/
theorem C3_counterexample :
    "23:59" ∉ rowC3.time_slots
    ∧ postAppointments reqC3 (some rowC3) [] 7 =
        .created
          { id := 7, customer := { name := "B", email := "b@c.d", phone := "2" },
            service := "Cut", price := "25.00", duration := 45,
            date := "2025-06-10", time := "23:59", status := .pending,
            includeInAnalytics := true } := by
  constructor
  · decide
  · decide

/-- C3 amended: the POST handler performs no membership check of the
requested time against the day's `time_slots`; a booking request whose
time is not offered by the date is accepted (created with status
`pending`) whenever the date exists and is not closed, the slot has no
`pending`/`accepted` occupant, and the customer and request fields are
non-empty. -/
theorem C3_no_slot_membership_check (req : BookingRequest) (row : AvailRow)
    (db : List Appointment) (newId : Nat)
    (hc : customerMissing req.customer = false)
    (hf : (req.service.isEmpty || req.date.isEmpty || req.time.isEmpty) = false)
    (hcl : row.is_closed = false)
    (hb : existingBookings db req.date req.time = [])
    (_hnm : req.time ∉ row.time_slots) :
    ∃ a, postAppointments req (some row) db newId = .created a ∧
      a.status = Status.pending ∧ a.date = req.date ∧ a.time = req.time := by
  unfold postAppointments
  rw [if_neg (by simp [hc]), if_neg (by simp [hf])]
  simp only
  rw [if_neg (by simp [hcl]), if_neg (by simp [hb, List.isEmpty])]
  exact ⟨_, rfl, rfl, rfl, rfl⟩

/-- Fixture for the C3 witness: the appointment created at the unoffered
time. -/
def createdC3 : Appointment :=
  { id := 7, customer := { name := "B", email := "b@c.d", phone := "2" },
    service := "Cut", price := "25.00", duration := 45,
    date := "2025-06-10", time := "23:59", status := .pending,
    includeInAnalytics := true }

/-- Witness for C3's amended theorem at the counterexample input. -/
theorem C3_witness :
    postAppointments reqC3 (some rowC3) [] 7 = .created createdC3
    ∧ createdC3.status = Status.pending
    ∧ createdC3.time = reqC3.time := by
  obtain ⟨a, ha, hs, hd2, ht⟩ :=
    C3_no_slot_membership_check reqC3 rowC3 [] 7 (by decide) (by decide)
      (by decide) (by decide) (by decide)
  have hconc : postAppointments reqC3 (some rowC3) [] 7 =
      .created createdC3 := by decide
  rw [hconc] at ha
  cases ha
  exact ⟨hconc, hs, ht⟩

/-- Fixture for the C4 counterexample: a request with an empty customer
name, aimed at an unavailable date (no availability row). -/
def reqC4 : BookingRequest :=
  { customer := some { name := "", email := "b@c.d", phone := "2" },
    service := "Cut", price := none, duration := none,
    date := "2025-06-10", time := "09:00",
    includeInAnalyticsField := none, statusField := none }

/-- Counterexample to C4: for a request with both an unavailable date
(`availRow = none`) and an empty customer field, the handler answers the
customer-information rejection, not the date-unavailable one — the
customer check runs first, not last. -/
theorem C4_counterexample :
    postAppointments reqC4 none [] 1 =
        .badRequest "Customer information is required"
    ∧ postAppointments reqC4 none [] 1 ≠
        .badRequest "This date is not available for booking" := by
  constructor
  · decide
  · decide

/-- C4 amended: the POST handler validates in the fixed order
(1) customer fields non-empty, (2) service/date/time present,
(3) availability row exists, (4) date not closed, (5) slot not taken,
short-circuiting on the first failure; there is no requested-time-offered
check, and for a request with both an unavailable date and empty customer
fields the result is the customer-information rejection. -/
theorem C4_validation_order (req : BookingRequest)
    (availRow : Option AvailRow) (db : List Appointment) (newId : Nat) :
    (customerMissing req.customer = true →
      postAppointments req availRow db newId =
        .badRequest "Customer information is required")
    ∧ (customerMissing req.customer = false →
        (req.service.isEmpty || req.date.isEmpty || req.time.isEmpty) = true →
        postAppointments req availRow db newId =
          .badRequest "Service, date, and time are required")
    ∧ (customerMissing req.customer = false →
        (req.service.isEmpty || req.date.isEmpty || req.time.isEmpty) = false →
        availRow = none →
        postAppointments req availRow db newId =
          .badRequest "This date is not available for booking")
    ∧ (∀ row, customerMissing req.customer = false →
        (req.service.isEmpty || req.date.isEmpty || req.time.isEmpty) = false →
        availRow = some row → row.is_closed = true →
        postAppointments req availRow db newId =
          .badRequest "This date is closed and not available for booking")
    ∧ (∀ row, customerMissing req.customer = false →
        (req.service.isEmpty || req.date.isEmpty || req.time.isEmpty) = false →
        availRow = some row → row.is_closed = false →
        existingBookings db req.date req.time ≠ [] →
        postAppointments req availRow db newId =
          .badRequest "This time slot is already booked") := by
  refine ⟨fun h1 => ?_, fun h1 h2 => ?_, fun h1 h2 h3 => ?_,
    fun row h1 h2 h3 h4 => ?_, fun row h1 h2 h3 h4 h5 => ?_⟩
  · unfold postAppointments
    rw [if_pos h1]
  · unfold postAppointments
    rw [if_neg (by simp [h1]), if_pos h2]
  · subst h3
    unfold postAppointments
    rw [if_neg (by simp [h1]), if_neg (by simp [h2])]
  · subst h3
    unfold postAppointments
    rw [if_neg (by simp [h1]), if_neg (by simp [h2])]
    simp only
    rw [if_pos h4]
  · subst h3
    unfold postAppointments
    rw [if_neg (by simp [h1]), if_neg (by simp [h2])]
    simp only
    rw [if_neg (by simp [h4])]
    rw [if_pos ?_]
    cases hl : existingBookings db req.date req.time with
    | nil => exact absurd hl h5
    | cons x xs => simp [List.isEmpty]

/-- Fixture for the C4 witness: a fully valid request. -/
def reqC4ok : BookingRequest :=
  { customer := some { name := "B", email := "b@c.d", phone := "2" },
    service := "Cut", price := none, duration := none,
    date := "2025-06-10", time := "09:00",
    includeInAnalyticsField := none, statusField := none }

/-- Fixture for the C4 witness: a request missing its service field. -/
def reqC4noservice : BookingRequest :=
  { customer := some { name := "B", email := "b@c.d", phone := "2" },
    service := "", price := none, duration := none,
    date := "2025-06-10", time := "09:00",
    includeInAnalyticsField := none, statusField := none }

/-- Fixture for the C4 witness: a pending occupant of `2025-06-10 09:00`. -/
def occupantC4 : Appointment :=
  { id := 21, customer := { name := "A", email := "a@b.c", phone := "1" },
    service := "Cut", price := "25.00", duration := 45,
    date := "2025-06-10", time := "09:00", status := .pending,
    includeInAnalytics := true }

/-- Witness for C4's amended theorem: each of the five short-circuit
stages fired at a concrete input. -/
theorem C4_witness :
    postAppointments reqC4 none [] 1 =
        .badRequest "Customer information is required"
    ∧ postAppointments reqC4noservice none [] 1 =
        .badRequest "Service, date, and time are required"
    ∧ postAppointments reqC4ok none [] 1 =
        .badRequest "This date is not available for booking"
    ∧ postAppointments reqC4ok
        (some { time_slots := ["09:00"], is_closed := true }) [] 1 =
        .badRequest "This date is closed and not available for booking"
    ∧ postAppointments reqC4ok
        (some { time_slots := ["09:00"], is_closed := false }) [occupantC4] 1 =
        .badRequest "This time slot is already booked" := by
  refine ⟨?_, ?_, ?_, ?_, ?_⟩
  · exact (C4_validation_order reqC4 none [] 1).1 (by decide)
  · exact (C4_validation_order reqC4noservice none [] 1).2.1
      (by decide) (by decide)
  · exact (C4_validation_order reqC4ok none [] 1).2.2.1
      (by decide) (by decide) rfl
  · exact (C4_validation_order reqC4ok _ [] 1).2.2.2.1
      { time_slots := ["09:00"], is_closed := true }
      (by decide) (by decide) rfl (by decide)
  · exact (C4_validation_order reqC4ok _ [occupantC4] 1).2.2.2.2
      { time_slots := ["09:00"], is_closed := false }
      (by decide) (by decide) rfl (by decide) (by decide)

/-- Fixture for C5: a pending appointment. -/
def aptC5 : Appointment :=
  { id := 1, customer := { name := "A", email := "a@b.c", phone := "1" },
    service := "Cut", price := "25.00", duration := 45,
    date := "2025-06-10", time := "09:00", status := .pending,
    includeInAnalytics := true }

/-- Counterexample to C5: after `pending -> cancelled`, a PATCH to
`accepted` is not rejected — it succeeds, returns the appointment with
status `accepted`, and stores that status. -/
theorem C5_counterexample :
    (patchAppointmentStatus
        (patchAppointmentStatus [aptC5] 1 .cancelled).1 1 .accepted).2 =
      .ok { aptC5 with status := .accepted }
    ∧ (patchAppointmentStatus
        (patchAppointmentStatus [aptC5] 1 .cancelled).1 1 .accepted).1 =
      [{ aptC5 with status := .accepted }] := by
  constructor
  · decide
  · decide

/-- C5 amended: the PATCH handler enforces no status transition guard —
any requested status is written to an existing appointment and echoed
back with HTTP 200; in particular `pending -> cancelled -> accepted`
succeeds and leaves the appointment `accepted`. -/
theorem C5_patch_applies_any_status (db : List Appointment)
    (appointmentId : Nat) (newStatus : Status) (apt : Appointment)
    (h : db.find? (fun a => a.id == appointmentId) = some apt) :
    (patchAppointmentStatus db appointmentId newStatus).2 =
      .ok { apt with status := newStatus } := by
  unfold patchAppointmentStatus
  rw [h]

/-- Witness for C5's amended theorem: the illegal-by-the-spec transition
`cancelled -> accepted` applied to a concrete store. -/
theorem C5_witness :
    (patchAppointmentStatus [{ aptC5 with status := .cancelled }] 1
        .accepted).2 = .ok { aptC5 with status := .accepted } :=
  C5_patch_applies_any_status [{ aptC5 with status := .cancelled }] 1
    .accepted { aptC5 with status := .cancelled } (by decide)

/-- Counterexample to C6: a date whose record has `closed == true` and a
single slot; removing that slot deletes the entry from the store instead
of retaining a (now empty) closed entry — the deletion does not consult
the `closed` flag. -/
theorem C6_counterexample :
    lookupA
      (removeTimeSlot
        [("2025-06-10",
          { available := true, timeSlots := ["09:00"], closed := some true })]
        "2025-06-10" "09:00")
      "2025-06-10" = none := by
  decide

/-- C6 amended: `removeTimeSlot` removes the given time; when the
resulting `timeSlots` list is empty the date entry is deleted from the
store unconditionally — also when `closed == true`; when it is
non-empty, the entry is rewritten as `{available: true, timeSlots}` with
the `closed` field dropped. -/
theorem C6_removeTimeSlot_deletes_unconditionally
    (availability : List (String × DayRec)) (dateStr timeSlot : String)
    (dayInfo : DayRec) (h : lookupA availability dateStr = some dayInfo) :
    (dayInfo.timeSlots.filter (fun slot => slot ≠ timeSlot) = [] →
      lookupA (removeTimeSlot availability dateStr timeSlot) dateStr = none)
    ∧ (dayInfo.timeSlots.filter (fun slot => slot ≠ timeSlot) ≠ [] →
        lookupA (removeTimeSlot availability dateStr timeSlot) dateStr =
          some { available := true,
                 timeSlots :=
                   dayInfo.timeSlots.filter (fun slot => slot ≠ timeSlot),
                 closed := none }) := by
  constructor
  · intro hnil
    unfold removeTimeSlot
    rw [h]
    simp only [Option.getD_some, hnil, List.isEmpty_nil, if_true]
    exact lookupA_eraseA_self availability dateStr
  · intro hne
    unfold removeTimeSlot
    rw [h]
    simp only [Option.getD_some]
    rw [if_neg (fun hc => hne (List.isEmpty_iff.mp hc))]
    exact lookupA_insertA_self availability dateStr _

/-- Witness for C6's amended theorem: removing the last slot of an open
day deletes the entry; removing one of two slots rewrites the entry. -/
theorem C6_witness :
    lookupA
        (removeTimeSlot
          [("2025-07-01",
            { available := true, timeSlots := ["10:00"], closed := none })]
          "2025-07-01" "10:00") "2025-07-01" = none
    ∧ lookupA
        (removeTimeSlot
          [("2025-07-02",
            { available := true, timeSlots := ["10:00", "11:00"],
              closed := none })]
          "2025-07-02" "10:00") "2025-07-02" =
        some { available := true, timeSlots := ["11:00"], closed := none } := by
  constructor
  · exact (C6_removeTimeSlot_deletes_unconditionally
      [("2025-07-01",
        { available := true, timeSlots := ["10:00"], closed := none })]
      "2025-07-01" "10:00"
      { available := true, timeSlots := ["10:00"], closed := none }
      (by decide)).1 (by decide)
  · have h := (C6_removeTimeSlot_deletes_unconditionally
      [("2025-07-02",
        { available := true, timeSlots := ["10:00", "11:00"],
          closed := none })]
      "2025-07-02" "10:00"
      { available := true, timeSlots := ["10:00", "11:00"], closed := none }
      (by decide)).2 (by decide)
    rw [h]
    decide

/-- Ascending order of time strings: JS lexicographic `<=` between
adjacent elements, which is the correct order for zero-padded `HH:MM`. -/
def SortedAsc (l : List String) : Prop :=
  List.Sorted (fun a b => jsLe a b = true) l

instance (l : List String) : Decidable (SortedAsc l) :=
  inferInstanceAs (Decidable (List.Sorted _ l))

/-- Counterexample to C8: a day whose stored `timeSlots` are unsorted
(`["09:45","09:00"]`) resolves, with no appointments, to the same
unsorted list — the resolver is a plain filter and does not sort, so its
output is not always in ascending time order. -/
theorem C8_counterexample :
    getAvailableTimeSlots
        [("2025-06-10", { timeSlots := ["09:45", "09:00"], closed := false })]
        [] "2025-06-10" = ["09:45", "09:00"]
    ∧ ¬ SortedAsc
        (getAvailableTimeSlots
          [("2025-06-10", { timeSlots := ["09:45", "09:00"], closed := false })]
          [] "2025-06-10") := by
  constructor
  · decide
  · decide

/-- C8 amended: the resolver does not re-sort — it preserves the stored
order of `timeSlots` (its output is a sublist of them), so its output is
in ascending time order exactly when the stored `timeSlots` already are;
an unsorted input is passed through unsorted. -/
theorem C8_resolver_preserves_order (availability : List (String × DayInfo))
    (existing : List Appointment) (dateStr : String) (dayInfo : DayInfo)
    (h : lookupA availability dateStr = some dayInfo)
    (hs : SortedAsc dayInfo.timeSlots) :
    List.Sublist (getAvailableTimeSlots availability existing dateStr)
      dayInfo.timeSlots
    ∧ SortedAsc (getAvailableTimeSlots availability existing dateStr) := by
  unfold getAvailableTimeSlots
  rw [h]
  cases hc : dayInfo.closed with
  | true =>
    simp [hc, SortedAsc]
  | false =>
    simp only [hc, Bool.false_eq_true, if_false]
    exact ⟨List.filter_sublist _,
      List.Pairwise.sublist (List.filter_sublist _) hs⟩

/-- Witness for C8's amended theorem: a sorted two-slot day with one slot
booked resolves to the sorted singleton `["09:45"]`. -/
theorem C8_witness :
    List.Sublist
        (getAvailableTimeSlots
          [("2025-06-10", { timeSlots := ["09:00", "09:45"], closed := false })]
          [{ id := 2, customer := { name := "A", email := "a@b.c", phone := "1" },
             service := "Cut", price := "25.00", duration := 45,
             date := "2025-06-10", time := "09:00", status := .accepted,
             includeInAnalytics := true }] "2025-06-10")
        ["09:00", "09:45"]
    ∧ SortedAsc
        (getAvailableTimeSlots
          [("2025-06-10", { timeSlots := ["09:00", "09:45"], closed := false })]
          [{ id := 2, customer := { name := "A", email := "a@b.c", phone := "1" },
             service := "Cut", price := "25.00", duration := 45,
             date := "2025-06-10", time := "09:00", status := .accepted,
             includeInAnalytics := true }] "2025-06-10") :=
  C8_resolver_preserves_order
    [("2025-06-10", { timeSlots := ["09:00", "09:45"], closed := false })]
    [{ id := 2, customer := { name := "A", email := "a@b.c", phone := "1" },
       service := "Cut", price := "25.00", duration := 45,
       date := "2025-06-10", time := "09:00", status := .accepted,
       includeInAnalytics := true }] "2025-06-10"
    { timeSlots := ["09:00", "09:45"], closed := false }
    (by decide) (by decide)

theorem LocalDate.lt_nextDay (d : LocalDate) :
    LocalDate.lt d (nextDay d) = true := by
  unfold nextDay
  split
  · simp [LocalDate.lt]
  · split
    · simp [LocalDate.lt]
    · simp [LocalDate.lt]

/-- C10: the admin panel classifies an appointment as past exactly when
its local `(date, time)` datetime is before midnight at the start of
tomorrow; consequently every appointment dated today — whatever its
time — is past, drops out of the pending/accepted/total statistics, has
its delete button and analytics toggle disabled and its accept/decline
buttons not rendered. -/
theorem C10_today_counts_as_past (apt : Appointment) (today : LocalDate)
    (rest : List Appointment) (isUpdating : Bool) :
    (isPastAppointment apt today = true ↔
      LocalDateTime.lt (appointmentDateTime apt)
        { date := nextDay today, hour := 0, minute := 0 } = true)
    ∧ (parseDateStr apt.date = today →
        isPastAppointment apt today = true
        ∧ updateStats (apt :: rest) today = updateStats rest today
        ∧ buttonsDisabled apt today isUpdating = true
        ∧ acceptDeclineShown apt today = false) := by
  constructor
  · exact Iff.rfl
  · intro hd
    have hpast : isPastAppointment apt today = true := by
      unfold isPastAppointment LocalDateTime.lt
      rw [show (appointmentDateTime apt).date = today from hd]
      rw [Bool.or_eq_true]
      left
      exact LocalDate.lt_nextDay today
    refine ⟨hpast, ?_, ?_, ?_⟩
    · unfold updateStats
      rw [List.filter_cons_of_neg (by simp [hpast])]
    · unfold buttonsDisabled
      rw [hpast, Bool.or_true]
    · unfold acceptDeclineShown
      rw [hpast]
      rfl

/-- Fixture for the C10 witness: an appointment later today
(`2025-10-12 23:30`, "today" being `2025-10-12`). -/
def aptC10 : Appointment :=
  { id := 9, customer := { name := "A", email := "a@b.c", phone := "1" },
    service := "Cut", price := "25.00", duration := 45,
    date := "2025-10-12", time := "23:30", status := .pending,
    includeInAnalytics := true }

/-- Fixture for the C10 witness: a pending appointment on a later date. -/
def aptC10future : Appointment :=
  { id := 10, customer := { name := "B", email := "b@c.d", phone := "2" },
    service := "Cut", price := "25.00", duration := 45,
    date := "2025-10-20", time := "10:00", status := .pending,
    includeInAnalytics := true }

/-- Witness for C10: on `2025-10-12`, the appointment at `23:30` the same
day is past, excluded from the statistics, and its controls are off. -/
theorem C10_witness :
    isPastAppointment aptC10 { year := 2025, month := 10, day := 12 } = true
    ∧ updateStats [aptC10, aptC10future]
          { year := 2025, month := 10, day := 12 } =
        updateStats [aptC10future] { year := 2025, month := 10, day := 12 }
    ∧ buttonsDisabled aptC10 { year := 2025, month := 10, day := 12 } false
        = true
    ∧ acceptDeclineShown aptC10 { year := 2025, month := 10, day := 12 }
        = false := by
  have h := (C10_today_counts_as_past aptC10
      { year := 2025, month := 10, day := 12 } [aptC10future] false).2
      (by decide)
  exact ⟨h.1, h.2.1, h.2.2.1, h.2.2.2⟩

/-- C7: a successful `copyTimeSlots` is idempotent — running it again with
the same source and targets returns the same store and count — and every
target date's record in the result is the full replacement
`{available: true, timeSlots: copy of the source slots, closed: false}`,
whatever record (slots or closed flag) the target held before. -/
theorem C7_copy_idempotent_and_replaces
    (availability : List (String × DayRec)) (sourceDateStr : String)
    (selectedDays : List String) (today : LocalDate)
    (result : List (String × DayRec)) (dayCount : Nat)
    (h : copyTimeSlots availability sourceDateStr selectedDays today =
      .ok result dayCount) :
    copyTimeSlots result sourceDateStr selectedDays today =
      .ok result dayCount
    ∧ ∃ sourceDayInfo,
        lookupA availability sourceDateStr = some sourceDayInfo ∧
        ∀ d ∈ selectedDays, lookupA result d =
          some { available := true, timeSlots := sourceDayInfo.timeSlots,
                 closed := some false } := by
  unfold copyTimeSlots at h
  split at h
  · cases h
  · rename_i hne
    split at h
    · cases h
    · rename_i hpast
      split at h
      · cases h
      · rename_i hcont
        split at h
        · cases h
        · rename_i sourceDayInfo heq
          split at h
          · cases h
          · rename_i hslots
            cases h
            have hnotmem : sourceDateStr ∉ selectedDays := by
              intro hmem
              exact hcont (List.elem_eq_true_of_mem hmem)
            have hkey : ∀ k ∈ selectedDays,
                (selectedDays.foldl
                  (fun acc t => insertA acc t
                    { available := true, timeSlots := sourceDayInfo.timeSlots,
                      closed := some false }) availability).any
                  (fun p => p.1 == k) = true := by
              intro k hk
              exact lookupA_any _ k _
                (foldl_insertA_lookup_mem selectedDays availability _ k hk)
            have hall : ∀ p ∈ selectedDays.foldl
                (fun acc t => insertA acc t
                  { available := true, timeSlots := sourceDayInfo.timeSlots,
                    closed := some false }) availability,
                p.1 ∈ selectedDays → p.2 =
                  { available := true, timeSlots := sourceDayInfo.timeSlots,
                    closed := some false } := by
              intro p hp hk
              exact foldl_insertA_all_copied selectedDays availability _ p hp hk
            have hidem := foldl_insertA_self selectedDays
              (selectedDays.foldl
                (fun acc t => insertA acc t
                  { available := true, timeSlots := sourceDayInfo.timeSlots,
                    closed := some false }) availability)
              { available := true, timeSlots := sourceDayInfo.timeSlots,
                closed := some false } hkey hall
            have hlook : lookupA
                (selectedDays.foldl
                  (fun acc t => insertA acc t
                    { available := true, timeSlots := sourceDayInfo.timeSlots,
                      closed := some false }) availability) sourceDateStr =
                some sourceDayInfo := by
              rw [foldl_insertA_lookup_not_mem selectedDays availability _
                sourceDateStr hnotmem]
              exact heq
            constructor
            · unfold copyTimeSlots
              rw [if_neg hne, if_neg hpast, if_neg hcont, hlook]
              simp only
              rw [if_neg hslots, hidem]
            · exact ⟨sourceDayInfo, heq,
                fun d hd => foldl_insertA_lookup_mem selectedDays availability
                  _ d hd⟩

/-- Fixture for the C7 witness: source day `2025-06-17` with two slots;
target `2025-06-18` seeded with `["10:00"]` (per spec §8 test 5), target
`2025-06-19` absent. -/
def avC7 : List (String × DayRec) :=
  [("2025-06-17",
    { available := true, timeSlots := ["09:00", "09:45"], closed := none }),
   ("2025-06-18",
    { available := true, timeSlots := ["10:00"], closed := none })]

/-- Fixture for the C7 witness: the store after the copy — both targets
replaced with the source slots, not merged. -/
def avC7done : List (String × DayRec) :=
  [("2025-06-17",
    { available := true, timeSlots := ["09:00", "09:45"], closed := none }),
   ("2025-06-18",
    { available := true, timeSlots := ["09:00", "09:45"],
      closed := some false }),
   ("2025-06-19",
    { available := true, timeSlots := ["09:00", "09:45"],
      closed := some false })]

/-- Witness for C7: the concrete copy succeeds, replaces the seeded target
(`["10:00"]` becomes `["09:00","09:45"]`, no union), and applying the
copy again returns the same store and count. -/
theorem C7_witness :
    copyTimeSlots avC7 "2025-06-17" ["2025-06-18", "2025-06-19"]
        { year := 2025, month := 6, day := 1 } = .ok avC7done 2
    ∧ copyTimeSlots avC7done "2025-06-17" ["2025-06-18", "2025-06-19"]
        { year := 2025, month := 6, day := 1 } = .ok avC7done 2
    ∧ lookupA avC7done "2025-06-18" =
        some { available := true, timeSlots := ["09:00", "09:45"],
               closed := some false }
    ∧ lookupA avC7done "2025-06-19" =
        some { available := true, timeSlots := ["09:00", "09:45"],
               closed := some false } := by
  have h : copyTimeSlots avC7 "2025-06-17" ["2025-06-18", "2025-06-19"]
      { year := 2025, month := 6, day := 1 } = .ok avC7done 2 := by decide
  have hmain := C7_copy_idempotent_and_replaces avC7 "2025-06-17"
    ["2025-06-18", "2025-06-19"] { year := 2025, month := 6, day := 1 }
    avC7done 2 h
  obtain ⟨src, hsrc, hrepl⟩ := hmain.2
  have hconc : lookupA avC7 "2025-06-17" =
      some { available := true, timeSlots := ["09:00", "09:45"],
             closed := none } := by decide
  rw [hconc] at hsrc
  cases hsrc
  exact ⟨h, hmain.1,
    hrepl "2025-06-18" (by decide), hrepl "2025-06-19" (by decide)⟩

end Barber
